import Mathlib

/-!
Shallow embedding of `aligned_alloc.rs` (src/src/lib.rs): a cross-platform
aligned-allocation primitive with two implementations selected by platform.

* Unix (`mod imp`, `#[cfg(unix)]`): a thin adapter over `posix_memalign`.
  The OS response is modelled by `Unix.PosixCode` (the return code of
  `posix_memalign` together with the pointer it stores on success); a Rust
  `panic!` is modelled as `Except.error` carrying the panic message.

* Windows (`mod imp`, `#[cfg(windows)]`): the manual allocator built on
  `VirtualAlloc`/`VirtualFree`.  The OS is modelled by a `Windows.WinOS`
  record of response functions (one per winapi entry point, applied to the
  exact arguments the code passes), the `static mut PAGE_SIZE` cache by
  `Windows.WinState`, and every system call the code performs is recorded in
  a `Windows.WinCall` trace so that call-count properties are expressible.

usize arithmetic is `Nat` with explicit wrapping modulo `2 ^ w` (`w` = word
size in bits) exactly where the Rust code can wrap (`size + align - 1`,
`ptr as usize + align - 1`); bitwise `&` is `Nat.land` and `!x` on a usize
is `2 ^ w - 1 - x`.
-/

namespace AlignedAlloc

/-- Rust `usize::is_power_of_two` (documented as: true iff `self == 2^k` for
some `k`), as an executable predicate on `Nat` (the classic single-set-bit
test; `is_power_of_two_iff` below proves it matches the documented
semantics). -/
def is_power_of_two (n : Nat) : Bool :=
  n != 0 && (n &&& (n - 1)) == 0

/-- Wrapping addition of two usize values (`a + b` in release-mode Rust). -/
def wadd (w a b : Nat) : Nat := (a + b) % 2 ^ w

/-- Wrapping decrement of a usize value (`a - 1` in release-mode Rust). -/
def wsub1 (w a : Nat) : Nat := (a + (2 ^ w - 1)) % 2 ^ w

/-- Bitwise complement of a usize value `a < 2 ^ w` (Rust `!a`). -/
def wnot (w a : Nat) : Nat := 2 ^ w - 1 - a

/-- The reservation size `size + align - 1` computed (with usize wrapping) at
src/src/lib.rs:105. -/
def reserve_size (w size align : Nat) : Nat :=
  wsub1 w (wadd w size align)

/-- The aligned address `(ptr as usize + align - 1) & !(align - 1)` computed
(with usize wrapping) at src/src/lib.rs:111. -/
def align_up (w base align : Nat) : Nat :=
  wsub1 w (wadd w base align) &&& wnot w (align - 1)

namespace Unix

/-- Response of the `posix_memalign` call: the returned code together with
the pointer stored through `memptr` when the code is 0 (POSIX specifies the
codes 0, `EINVAL` and `ENOMEM`; any other code hits the `unreachable!()`
arm). -/
inductive PosixCode where
  | ok (memptr : Nat)
  | einval
  | enomem
  | other (code : Nat)

/-- Unix `imp::aligned_alloc` (src/src/lib.rs:41-59): call `posix_memalign`
and translate its result; `wordBytes` is `mem::size_of::<usize>()`, a panic
is `Except.error` with the panic message, and the null pointer is `0`. -/
def aligned_alloc (wordBytes : Nat) (os : PosixCode) (size align : Nat) :
    Except String Nat :=
  match os with
  | .ok memptr => .ok memptr
  | .einval =>
    if align < wordBytes then
      .error ("EINVAL: invalid alignment: " ++ toString align ++
        " (minimum is " ++ toString wordBytes ++ ")")
    else if is_power_of_two align = false then
      .error ("EINVAL: invalid alignment: " ++ toString align ++
        " (must be a power of two)")
    else
      .error ("EINVAL: invalid alignment: " ++ toString align)
  | .enomem => .ok 0
  | .other _ => .error "internal error: entered unreachable code"

end Unix

namespace Windows

/-- winapi `MEM_COMMIT`. -/
def MEM_COMMIT : Nat := 0x1000

/-- winapi `MEM_RESERVE`. -/
def MEM_RESERVE : Nat := 0x2000

/-- winapi `MEM_RELEASE`. -/
def MEM_RELEASE : Nat := 0x8000

/-- winapi `PAGE_NOACCESS`. -/
def PAGE_NOACCESS : Nat := 0x01

/-- winapi `PAGE_READWRITE`. -/
def PAGE_READWRITE : Nat := 0x04

/-- Model of the Windows memory API: `pageSize` is the `dwPageSize` reported
by `GetSystemInfo`; `virtualAlloc lpAddress dwSize flAllocationType
flProtect` is the address `VirtualAlloc` returns (0 = NULL = failure);
`virtualFree lpAddress dwSize dwFreeType` is the BOOL `VirtualFree` returns
(0 = failure); `lastError` is what `GetLastError` reports after a failure. -/
structure WinOS where
  pageSize : Nat
  virtualAlloc : Nat → Nat → Nat → Nat → Nat
  virtualFree : Nat → Nat → Nat → Nat
  lastError : Nat

/-- The process-wide mutable state: the `static mut PAGE_SIZE: DWORD = 0`
cache (src/src/lib.rs:79). -/
structure WinState where
  PAGE_SIZE : Nat
deriving DecidableEq

/-- One recorded system call of the Windows implementation. -/
inductive WinCall where
  | alloc (lpAddress dwSize flAllocationType flProtect : Nat)
  | free (lpAddress dwSize dwFreeType : Nat)
  | getSystemInfo
deriving DecidableEq

/-- Calls that touch memory (everything except the `GetSystemInfo` query). -/
def is_mem_call : WinCall → Bool
  | .getSystemInfo => false
  | _ => true

/-- Value of the page-size cache after the lazy initialization
`if PAGE_SIZE == 0 { get_page_size() }` (src/src/lib.rs:94 with
src/src/lib.rs:82-89). -/
def page_size_after (os : WinOS) (s : WinState) : Nat :=
  if s.PAGE_SIZE == 0 then os.pageSize else s.PAGE_SIZE

/-- Windows `imp::aligned_alloc` (src/src/lib.rs:91-122).  Returns the
page-size cache after the call, the trace of system calls performed, and the
result (`Except.error` = panic with the panic message, `Except.ok 0` = null
pointer).  `w` is the usize width in bits. -/
def aligned_alloc (w : Nat) (os : WinOS) (s : WinState) (size align : Nat) :
    WinState × List WinCall × Except String Nat :=
  if is_power_of_two align = false then
    (s, [], .error "align must be a power of two")
  else
    let t0 : List WinCall := if s.PAGE_SIZE == 0 then [.getSystemInfo] else []
    let s : WinState := ⟨page_size_after os s⟩
    if align ≤ s.PAGE_SIZE then
      (s, t0 ++ [.alloc 0 size (MEM_COMMIT ||| MEM_RESERVE) PAGE_READWRITE],
        .ok (os.virtualAlloc 0 size (MEM_COMMIT ||| MEM_RESERVE) PAGE_READWRITE))
    else
      let ptr := os.virtualAlloc 0 (reserve_size w size align) MEM_RESERVE PAGE_NOACCESS
      let t1 := t0 ++ [.alloc 0 (reserve_size w size align) MEM_RESERVE PAGE_NOACCESS]
      if ptr == 0 then
        (s, t1, .ok 0)
      else
        let t2 := t1 ++ [.free ptr 0 MEM_RELEASE]
        if os.virtualFree ptr 0 MEM_RELEASE == 0 then
          (s, t2, .error ("WINAPI error " ++ toString os.lastError ++
            " while freeing reserved memory"))
        else
          (s, t2 ++ [.alloc (align_up w ptr align) size
              (MEM_COMMIT ||| MEM_RESERVE) PAGE_READWRITE],
            .ok (os.virtualAlloc (align_up w ptr align) size
              (MEM_COMMIT ||| MEM_RESERVE) PAGE_READWRITE))

/-- Windows `imp::aligned_free` (src/src/lib.rs:124-129). -/
def aligned_free (os : WinOS) (ptr : Nat) : Except String Unit :=
  if os.virtualFree ptr 0 MEM_RELEASE == 0 then
    .error ("WINAPI error " ++ toString os.lastError ++ " while releasing memory")
  else
    .ok ()

/-- A public-API operation of the crate, for stating properties of call
sequences. -/
inductive Op where
  | alloc (size align : Nat)
  | free (ptr : Nat)

/-- Effect of one operation on the page-size cache (`aligned_free` never
touches it). -/
def run_op (w : Nat) (os : WinOS) (s : WinState) : Op → WinState
  | .alloc size align => (aligned_alloc w os s size align).1
  | .free _ => s

/-- Effect of a sequence of operations on the page-size cache. -/
def run_ops (w : Nat) (os : WinOS) (s : WinState) : List Op → WinState
  | [] => s
  | op :: rest => run_ops w os (run_op w os s op) rest

end Windows

/-- A well-behaved OS model for concrete instances: page size 4096,
OS-chosen allocations land at 65536, explicit-address allocations succeed
at the requested address, frees succeed. -/
def osGood : Windows.WinOS :=
  ⟨4096, fun a _ _ _ => if a == 0 then 65536 else a, fun _ _ _ => 1, 0⟩

/-- An OS model in which every allocation fails (out of memory): page size
4096, all `VirtualAlloc` calls return NULL, frees succeed. -/
def osNoMem : Windows.WinOS :=
  ⟨4096, fun _ _ _ _ => 0, fun _ _ _ => 1, 8⟩

/-- An OS model losing the step-3/step-4 race: the step-1 reservation (the
only call passing `MEM_RESERVE` alone) succeeds at 65536, but the re-commit
at the aligned address fails; frees succeed. -/
def osRace : Windows.WinOS :=
  ⟨4096, fun _ _ t _ => if t == Windows.MEM_RESERVE then 65536 else 0,
    fun _ _ _ => 1, 8⟩

/-- An OS model whose `VirtualFree` fails with `GetLastError` 487:
allocations behave as in `osGood`. -/
def osFreeFail : Windows.WinOS :=
  ⟨4096, fun a _ _ _ => if a == 0 then 65536 else a, fun _ _ _ => 0, 487⟩

/-! Result characterizations of the four ways a Windows `aligned_alloc`
call can run, used by the claim theorems below. -/

/-- Fast-path result: one reserve+commit at an OS-chosen address. -/
theorem aligned_alloc_fast_result (w size align : Nat) (os : Windows.WinOS)
    (s : Windows.WinState) (hpow : is_power_of_two align = true)
    (hfast : align ≤ Windows.page_size_after os s) :
    (Windows.aligned_alloc w os s size align).2.2 =
      .ok (os.virtualAlloc 0 size (Windows.MEM_COMMIT ||| Windows.MEM_RESERVE)
        Windows.PAGE_READWRITE) := by
  obtain ⟨ps⟩ := s
  by_cases hc : ps = 0 <;>
    simp_all [Windows.aligned_alloc, Windows.page_size_after]

/-- Slow-path result when the step-1 reservation fails: null. -/
theorem aligned_alloc_nullreserve_result (w size align : Nat) (os : Windows.WinOS)
    (s : Windows.WinState) (hpow : is_power_of_two align = true)
    (hslow : ¬align ≤ Windows.page_size_after os s)
    (h1 : os.virtualAlloc 0 (reserve_size w size align) Windows.MEM_RESERVE
      Windows.PAGE_NOACCESS = 0) :
    (Windows.aligned_alloc w os s size align).2.2 = .ok 0 := by
  obtain ⟨ps⟩ := s
  by_cases hc : ps = 0 <;>
    simp_all [Windows.aligned_alloc, Windows.page_size_after] <;>
    rw [if_neg (by omega)]

/-- Slow-path result when the step-3 release fails: a panic. -/
theorem aligned_alloc_freefail_result (w size align b : Nat) (os : Windows.WinOS)
    (s : Windows.WinState) (hpow : is_power_of_two align = true)
    (hslow : ¬align ≤ Windows.page_size_after os s)
    (h1 : os.virtualAlloc 0 (reserve_size w size align) Windows.MEM_RESERVE
      Windows.PAGE_NOACCESS = b)
    (hb : b ≠ 0) (hfree : os.virtualFree b 0 Windows.MEM_RELEASE = 0) :
    (Windows.aligned_alloc w os s size align).2.2 =
      .error ("WINAPI error " ++ toString os.lastError ++
        " while freeing reserved memory") := by
  obtain ⟨ps⟩ := s
  by_cases hc : ps = 0 <;>
    simp_all [Windows.aligned_alloc, Windows.page_size_after] <;>
    (rw [if_neg (by omega)]; try simp)

/-- Slow-path result when steps 1-3 succeed: the step-4 commit at the
aligned address is returned as-is. -/
theorem aligned_alloc_commit_result (w size align b : Nat) (os : Windows.WinOS)
    (s : Windows.WinState) (hpow : is_power_of_two align = true)
    (hslow : ¬align ≤ Windows.page_size_after os s)
    (h1 : os.virtualAlloc 0 (reserve_size w size align) Windows.MEM_RESERVE
      Windows.PAGE_NOACCESS = b)
    (hb : b ≠ 0) (hfree : os.virtualFree b 0 Windows.MEM_RELEASE ≠ 0) :
    (Windows.aligned_alloc w os s size align).2.2 =
      .ok (os.virtualAlloc (align_up w b align) size
        (Windows.MEM_COMMIT ||| Windows.MEM_RESERVE) Windows.PAGE_READWRITE) := by
  obtain ⟨ps⟩ := s
  by_cases hc : ps = 0 <;>
    simp_all [Windows.aligned_alloc, Windows.page_size_after] <;>
    (rw [if_neg (by omega)]; try simp)

/-- Halving preserves the single-set-bit test: helper for
`is_power_of_two_iff`. -/
theorem land_pred_halve (m : Nat) (h : ((2 * m) &&& (2 * m - 1)) = 0) :
    (m &&& (m - 1)) = 0 := by
  apply Nat.eq_of_testBit_eq
  intro i
  rw [Nat.zero_testBit, Nat.testBit_land]
  have h1 : Nat.testBit m i = Nat.testBit (2 * m) (i + 1) := by
    rw [Nat.testBit_add_one]
    congr 1
    omega
  have h2 : Nat.testBit (m - 1) i = Nat.testBit (2 * m - 1) (i + 1) := by
    rw [Nat.testBit_add_one]
    congr 1
    omega
  rw [h1, h2, ← Nat.testBit_land, h, Nat.zero_testBit]

/-- A nonzero number whose `n &&& (n - 1)` vanishes is a power of two:
helper for `is_power_of_two_iff`. -/
theorem pow_of_land_pred : ∀ n, n ≠ 0 → (n &&& (n - 1)) = 0 → ∃ k, n = 2 ^ k := by
  intro n
  induction n using Nat.strong_induction_on with
  | _ n ih =>
    intro h0 h
    rcases Nat.even_or_odd n with he | ho
    · obtain ⟨m, hm⟩ := he
      have hm2 : n = 2 * m := by omega
      have hmne : m ≠ 0 := by omega
      have hrec : (m &&& (m - 1)) = 0 := land_pred_halve m (by rw [← hm2]; exact h)
      obtain ⟨k, hk⟩ := ih m (by omega) hmne hrec
      exact ⟨k + 1, by rw [hm2, hk, Nat.pow_succ]; ring⟩
    · by_cases h1 : n = 1
      · exact ⟨0, by simp [h1]⟩
      · exfalso
        obtain ⟨m, hm⟩ := ho
        have hge : n ≥ 2 ^ 1 := by omega
        obtain ⟨j, hj1, hjb⟩ := Nat.ge_two_pow_implies_high_bit_true hge
        have hb2 : Nat.testBit (n - 1) j = true := by
          obtain ⟨j', rfl⟩ : ∃ j', j = j' + 1 := ⟨j - 1, by omega⟩
          rw [Nat.testBit_add_one] at hjb ⊢
          have hdiv : (n - 1) / 2 = n / 2 := by omega
          rw [hdiv]
          exact hjb
        have hland : Nat.testBit (n &&& (n - 1)) j = true := by
          rw [Nat.testBit_land, hjb, hb2]
          rfl
        rw [h, Nat.zero_testBit] at hland
        exact absurd hland (by simp)

/-- Specification of `is_power_of_two`: it decides membership in the powers
of two. -/
theorem is_power_of_two_iff (n : Nat) : is_power_of_two n = true ↔ ∃ k, n = 2 ^ k := by
  unfold is_power_of_two
  constructor
  · intro h
    simp only [Bool.and_eq_true, bne_iff_ne, beq_iff_eq, ne_eq] at h
    exact pow_of_land_pred n h.1 h.2
  · rintro ⟨k, rfl⟩
    simp only [Bool.and_eq_true, bne_iff_ne, beq_iff_eq, ne_eq]
    refine ⟨(Nat.pos_pow_of_pos k (by omega)).ne', ?_⟩
    apply Nat.eq_of_testBit_eq
    intro i
    rw [Nat.testBit_land, Nat.testBit_two_pow, Nat.testBit_two_pow_sub_one, Nat.zero_testBit]
    by_cases hik : k = i
    · subst hik
      simp
    · simp [hik]

/-- With `align ≥ 1` the two wrapping steps of `size + align - 1` collapse to
a single reduction modulo `2 ^ w`. -/
theorem wsub1_wadd_eq (w a b : Nat) (hb : 1 ≤ b) :
    wsub1 w (wadd w a b) = (a + b - 1) % 2 ^ w := by
  have hpos : 0 < 2 ^ w := Nat.pos_pow_of_pos w (by omega)
  unfold wsub1 wadd
  rw [Nat.mod_add_mod]
  have : a + b + (2 ^ w - 1) = (a + b - 1) + 2 ^ w := by omega
  rw [this, Nat.add_mod_right]

/-- Clearing the low `k` bits of `y < 2 ^ w` with the mask `2 ^ w - 2 ^ k`
rounds `y` down to a multiple of `2 ^ k`. -/
theorem land_two_pow_block (y k w : Nat) (hk : k ≤ w) (hy : y < 2 ^ w) :
    (y &&& (2 ^ w - 2 ^ k)) = 2 ^ k * (y / 2 ^ k) := by
  have hm : 2 ^ w - 2 ^ k = (2 ^ (w - k) - 1) <<< k := by
    rw [Nat.shiftLeft_eq, Nat.sub_mul, one_mul, ← Nat.pow_add, Nat.sub_add_cancel hk]
  have hr : 2 ^ k * (y / 2 ^ k) = (y >>> k) <<< k := by
    rw [Nat.shiftRight_eq_div_pow, Nat.shiftLeft_eq, Nat.mul_comm]
  rw [hm, hr]
  apply Nat.eq_of_testBit_eq
  intro i
  rw [Nat.testBit_land, Nat.testBit_shiftLeft, Nat.testBit_shiftLeft,
    Nat.testBit_two_pow_sub_one, Nat.testBit_shiftRight]
  by_cases hik : k ≤ i
  · have hcomp : k + (i - k) = i := by omega
    rw [hcomp]
    by_cases hiw : i < w
    · have h1 : i - k < w - k := by omega
      simp [hik, h1, ge_iff_le]
    · have hyf : Nat.testBit y i = false :=
        Nat.testBit_lt_two_pow (lt_of_lt_of_le hy (Nat.pow_le_pow_right (by omega) (by omega)))
      have h1 : ¬(i - k < w - k) := by omega
      simp [hyf, h1]
  · simp [hik, ge_iff_le]

/-- The same mask identity written with truncated subtraction. -/
theorem land_two_pow_block_sub (y k w : Nat) (hk : k ≤ w) (hy : y < 2 ^ w) :
    (y &&& (2 ^ w - 2 ^ k)) = y - y % 2 ^ k := by
  rw [land_two_pow_block y k w hk hy]
  have := Nat.div_add_mod y (2 ^ k)
  omega

/-- For a power-of-two `align = 2 ^ k`, `k ≤ w`, the complement mask
`!(align - 1)` is `2 ^ w - 2 ^ k`. -/
theorem wnot_pow_sub_one (w k : Nat) (hk : k ≤ w) :
    wnot w (2 ^ k - 1) = 2 ^ w - 2 ^ k := by
  have : 2 ^ k ≤ 2 ^ w := Nat.pow_le_pow_right (by omega) hk
  have : 1 ≤ 2 ^ k := Nat.pos_pow_of_pos k (by omega)
  unfold wnot
  omega

/-- Closed form of `align_up` for a power-of-two alignment: the masked value
is the (wrapped) `base + align - 1` rounded down to a multiple of `2 ^ k`. -/
theorem align_up_eq (w k base : Nat) (hk : k ≤ w) :
    align_up w base (2 ^ k) =
      2 ^ k * (((base + 2 ^ k - 1) % 2 ^ w) / 2 ^ k) := by
  have hpos : 0 < 2 ^ k := Nat.pos_pow_of_pos k (by omega)
  unfold align_up
  rw [wsub1_wadd_eq w base (2 ^ k) hpos, wnot_pow_sub_one w k hk]
  exact land_two_pow_block _ k w hk (Nat.mod_lt _ (Nat.pos_pow_of_pos w (by omega)))

/-! Helper facts about the slow-path address arithmetic, shared by the
claim theorems below. -/

/-- `align_up` always lands on a multiple of the (power-of-two) alignment,
wraparound or not. -/
theorem align_up_mod_self (w k base : Nat) (hk : k ≤ w) :
    align_up w base (2 ^ k) % 2 ^ k = 0 := by
  rw [align_up_eq w k base hk]
  exact Nat.mul_mod_right _ _

/-- Without wraparound, `align_up` is `base + align - 1` rounded down to a
multiple of the alignment. -/
theorem align_up_closed (w k base : Nat) (hk : k ≤ w) (hov : base + 2 ^ k - 1 < 2 ^ w) :
    align_up w base (2 ^ k) = 2 ^ k * ((base + 2 ^ k - 1) / 2 ^ k) := by
  rw [align_up_eq w k base hk, Nat.mod_eq_of_lt hov]

/-- Without wraparound, the aligned address is at or above the reservation
base. -/
theorem align_up_ge (w k base : Nat) (hk : k ≤ w) (hov : base + 2 ^ k - 1 < 2 ^ w) :
    base ≤ align_up w base (2 ^ k) := by
  have hpos : 0 < 2 ^ k := Nat.pos_pow_of_pos k (by omega)
  rw [align_up_closed w k base hk hov]
  have hdm := Nat.div_add_mod (base + 2 ^ k - 1) (2 ^ k)
  have hml : (base + 2 ^ k - 1) % 2 ^ k < 2 ^ k := Nat.mod_lt _ hpos
  omega

/-- Without wraparound, the aligned address stays within `align - 1` bytes
of the reservation base. -/
theorem align_up_le (w k base : Nat) (hk : k ≤ w) (hov : base + 2 ^ k - 1 < 2 ^ w) :
    align_up w base (2 ^ k) ≤ base + 2 ^ k - 1 := by
  rw [align_up_closed w k base hk hov]
  have hdm := Nat.div_add_mod (base + 2 ^ k - 1) (2 ^ k)
  omega

/-- Without wraparound, no smaller aligned address at or above the base
exists. -/
theorem align_up_min (w k base q : Nat) (hk : k ≤ w) (hov : base + 2 ^ k - 1 < 2 ^ w)
    (hq : q % 2 ^ k = 0) (hbq : base ≤ q) : align_up w base (2 ^ k) ≤ q := by
  have hpos : 0 < 2 ^ k := Nat.pos_pow_of_pos k (by omega)
  rw [align_up_closed w k base hk hov]
  obtain ⟨t, rfl⟩ := Nat.dvd_of_mod_eq_zero hq
  have hle : (base + 2 ^ k - 1) / 2 ^ k ≤ t := by
    have h1 : base + 2 ^ k - 1 ≤ 2 ^ k * t + (2 ^ k - 1) := by
      rw [Nat.add_sub_assoc hpos]
      exact Nat.add_le_add_right hbq _
    calc (base + 2 ^ k - 1) / 2 ^ k
        ≤ (2 ^ k * t + (2 ^ k - 1)) / 2 ^ k := Nat.div_le_div_right h1
      _ = t + (2 ^ k - 1) / 2 ^ k := Nat.mul_add_div hpos _ _
      _ = t := by rw [Nat.div_eq_of_lt (by omega), Nat.add_zero]
  exact Nat.mul_le_mul (Nat.le_refl _) hle

/-- Without overflow the reservation size is literally `size + align - 1`. -/
theorem reserve_size_exact (w size align : Nat) (hpos : 0 < align)
    (hov : size + align - 1 < 2 ^ w) :
    reserve_size w size align = size + align - 1 := by
  unfold reserve_size
  rw [wsub1_wadd_eq w size align hpos]
  exact Nat.mod_eq_of_lt hov

/-- C3: for every base address and every alignment `2 ^ k` that fits in a
usize (`k ≤ w`), assuming `base + align - 1` does not overflow, the value
`(base + align - 1) & !(align - 1)` computed in step 2 of the slow path
(src/src/lib.rs:111) is the least address that is greater than or equal to
`base` and divisible by `align`. -/
theorem align_up_least_aligned_address (w k base : Nat) (hk : k ≤ w)
    (hov : base + 2 ^ k - 1 < 2 ^ w) :
    align_up w base (2 ^ k) % 2 ^ k = 0 ∧
    base ≤ align_up w base (2 ^ k) ∧
    ∀ q, q % 2 ^ k = 0 → base ≤ q → align_up w base (2 ^ k) ≤ q :=
  ⟨align_up_mod_self w k base hk, align_up_ge w k base hk hov,
    fun q hq hbq => align_up_min w k base q hk hov hq hbq⟩

/-- C3 witness: word size 64, base 70000, align `2 ^ 20`: the slow-path
step-2 value is 1048576, which is aligned, at or above the base, and at or
below the aligned candidate 1048576 itself. -/
theorem align_up_least_aligned_address_witness :
    align_up 64 70000 (2 ^ 20) % 2 ^ 20 = 0 ∧
    70000 ≤ align_up 64 70000 (2 ^ 20) ∧
    align_up 64 70000 (2 ^ 20) ≤ 1048576 := by
  have h := align_up_least_aligned_address 64 20 70000 (by decide) (by decide)
  exact ⟨h.1, h.2.1, h.2.2 1048576 (by decide) (by decide)⟩

/-- C4: for every size, every reservation base, and every alignment `2 ^ k`
that fits in a usize, with `size + align - 1` not overflowing, the step-1
reservation request is exactly `size + align - 1` bytes and that window is
large enough: the step-2 aligned address satisfies `aligned + size ≤ base +
(size + align - 1)`; the boundary case `size = align` is an instance. -/
theorem reservation_window_sufficient (w k size base : Nat) (hk : k ≤ w)
    (hov : size + 2 ^ k - 1 < 2 ^ w) :
    reserve_size w size (2 ^ k) = size + 2 ^ k - 1 ∧
    align_up w base (2 ^ k) + size ≤ base + reserve_size w size (2 ^ k) := by
  have hpos : 0 < 2 ^ k := Nat.pos_pow_of_pos k (by omega)
  have h1 : reserve_size w size (2 ^ k) = size + 2 ^ k - 1 :=
    reserve_size_exact w size (2 ^ k) hpos hov
  have h2 : align_up w base (2 ^ k) ≤ base + 2 ^ k - 1 := by
    calc align_up w base (2 ^ k)
        = 2 ^ k * (((base + 2 ^ k - 1) % 2 ^ w) / 2 ^ k) := align_up_eq w k base hk
      _ ≤ (base + 2 ^ k - 1) % 2 ^ w := by
          have := Nat.div_add_mod ((base + 2 ^ k - 1) % 2 ^ w) (2 ^ k)
          omega
      _ ≤ base + 2 ^ k - 1 := Nat.mod_le _ _
  exact ⟨h1, by omega⟩

/-- C4 witness: the boundary case size = align = 1 MiB on a 64-bit word,
reservation base 8192: the reservation is `2 ^ 21 - 1` bytes and the
committed range ends inside the reserved window. -/
theorem reservation_window_sufficient_witness :
    reserve_size 64 1048576 (2 ^ 20) = 1048576 + 2 ^ 20 - 1 ∧
    align_up 64 8192 (2 ^ 20) + 1048576 ≤ 8192 + reserve_size 64 1048576 (2 ^ 20) :=
  reservation_window_sufficient 64 20 1048576 8192 (by decide) (by decide)

/-- C6: on the Unix adapter an `EINVAL` result never produces a value: the
adapter re-derives the cause, reporting align below the word-size minimum
first, then align not a power of two, and otherwise a generic invalid
alignment (src/src/lib.rs:46-55). -/
theorem unix_einval_diagnostic_order (wordBytes size align : Nat) :
    (align < wordBytes →
      Unix.aligned_alloc wordBytes .einval size align =
        .error ("EINVAL: invalid alignment: " ++ toString align ++
          " (minimum is " ++ toString wordBytes ++ ")")) ∧
    (wordBytes ≤ align → is_power_of_two align = false →
      Unix.aligned_alloc wordBytes .einval size align =
        .error ("EINVAL: invalid alignment: " ++ toString align ++
          " (must be a power of two)")) ∧
    (wordBytes ≤ align → is_power_of_two align = true →
      Unix.aligned_alloc wordBytes .einval size align =
        .error ("EINVAL: invalid alignment: " ++ toString align)) ∧
    ∀ p, Unix.aligned_alloc wordBytes .einval size align ≠ .ok p := by
  refine ⟨?_, ?_, ?_, ?_⟩
  · intro h
    simp [Unix.aligned_alloc, h]
  · intro h1 h2
    simp [Unix.aligned_alloc, Nat.not_lt.mpr h1, h2]
  · intro h1 h2
    simp [Unix.aligned_alloc, Nat.not_lt.mpr h1, h2]
  · intro p
    simp only [Unix.aligned_alloc]
    split
    · simp
    · split <;> simp

/-- C6 witness: word size 8; align 2 reports the below-minimum message,
align 24 the not-power-of-two message, align 16 the generic message. -/
theorem unix_einval_diagnostic_order_witness :
    Unix.aligned_alloc 8 .einval 1 2 =
      .error ("EINVAL: invalid alignment: " ++ toString 2 ++
        " (minimum is " ++ toString 8 ++ ")") ∧
    Unix.aligned_alloc 8 .einval 1 24 =
      .error ("EINVAL: invalid alignment: " ++ toString 24 ++
        " (must be a power of two)") ∧
    Unix.aligned_alloc 8 .einval 1 16 =
      .error ("EINVAL: invalid alignment: " ++ toString 16) ∧
    Unix.aligned_alloc 8 .einval 1 24 ≠ .ok 4096 :=
  ⟨(unix_einval_diagnostic_order 8 1 2).1 (by decide),
    (unix_einval_diagnostic_order 8 1 24).2.1 (by decide) (by decide),
    (unix_einval_diagnostic_order 8 1 16).2.2.1 (by decide) (by decide),
    (unix_einval_diagnostic_order 8 1 24).2.2.2 4096⟩

/-- C5: resource exhaustion is reported as null, never as a panic: `ENOMEM`
on Unix returns null; on Windows a null step-1 reservation returns null,
and a null step-4 commit (the step-3/4 race window included) returns null
provided the intervening release succeeded. -/
theorem exhaustion_returns_null (wordBytes w size align b : Nat)
    (os : Windows.WinOS) (s : Windows.WinState) :
    Unix.aligned_alloc wordBytes .enomem size align = .ok 0 ∧
    (is_power_of_two align = true →
      ¬align ≤ Windows.page_size_after os s →
      os.virtualAlloc 0 (reserve_size w size align) Windows.MEM_RESERVE
        Windows.PAGE_NOACCESS = 0 →
      (Windows.aligned_alloc w os s size align).2.2 = .ok 0) ∧
    (is_power_of_two align = true →
      ¬align ≤ Windows.page_size_after os s →
      os.virtualAlloc 0 (reserve_size w size align) Windows.MEM_RESERVE
        Windows.PAGE_NOACCESS = b →
      b ≠ 0 →
      os.virtualFree b 0 Windows.MEM_RELEASE ≠ 0 →
      os.virtualAlloc (align_up w b align) size
        (Windows.MEM_COMMIT ||| Windows.MEM_RESERVE) Windows.PAGE_READWRITE = 0 →
      (Windows.aligned_alloc w os s size align).2.2 = .ok 0) := by
  refine ⟨rfl, ?_, ?_⟩
  · intro hpow hslow h1
    obtain ⟨ps⟩ := s
    by_cases hc : ps = 0 <;>
      simp_all [Windows.aligned_alloc, Windows.page_size_after] <;>
      rw [if_neg (by omega)]
  · intro hpow hslow h1 hb hfree h4
    obtain ⟨ps⟩ := s
    by_cases hc : ps = 0 <;>
      simp_all [Windows.aligned_alloc, Windows.page_size_after] <;>
      rw [if_neg (by omega)]

/-- C5 witness: word size 64, align `2 ^ 20`, size 1, cold cache: under
`osNoMem` the step-1 reservation is null and the call returns null; under
`osRace` the step-4 commit is null and the call returns null; `ENOMEM` on
Unix returns null. -/
theorem exhaustion_returns_null_witness :
    Unix.aligned_alloc 8 .enomem 1 1048576 = .ok 0 ∧
    (Windows.aligned_alloc 64 osNoMem ⟨0⟩ 1 1048576).2.2 = .ok 0 ∧
    (Windows.aligned_alloc 64 osRace ⟨0⟩ 1 1048576).2.2 = .ok 0 :=
  ⟨(exhaustion_returns_null 8 64 1 1048576 0 osNoMem ⟨0⟩).1,
    (exhaustion_returns_null 8 64 1 1048576 0 osNoMem ⟨0⟩).2.1 (by decide)
      (by decide) (by decide),
    (exhaustion_returns_null 8 64 1 1048576 65536 osRace ⟨0⟩).2.2 (by decide)
      (by decide) (by decide) (by decide) (by decide) (by decide)⟩

/-- C2 counterexample: align 2 is a power of two below the 8-byte word size
of a 64-bit platform, yet the Windows implementation does not panic on
`aligned_alloc(1, 2)`: the power-of-two assertion passes and the fast path
returns the allocation normally. -/
theorem windows_small_pow2_align_no_panic :
    (Windows.aligned_alloc 64 osGood ⟨0⟩ 1 2).2.2 = Except.ok 65536 ∧ 2 < 8 := by
  exact ⟨rfl, by decide⟩

/-- C2 amended: `aligned_alloc(size, align)` with `align` below the native
word size is a hard failure on the Unix implementation (whose
`posix_memalign` reports `EINVAL` for such an alignment), while the Windows
implementation hard-fails exactly when `align` is not a power of two — a
power-of-two `align` below the word size is accepted there and served by
the fast path. -/
theorem invalid_align_hard_failure (wordBytes w size align : Nat)
    (os : Windows.WinOS) (s : Windows.WinState) :
    (align < wordBytes →
      ∃ msg, Unix.aligned_alloc wordBytes .einval size align = .error msg) ∧
    ((¬∃ k, align = 2 ^ k) →
      (Windows.aligned_alloc w os s size align).2.2 =
        .error "align must be a power of two") := by
  constructor
  · intro h
    refine ⟨"EINVAL: invalid alignment: " ++ toString align ++
      " (minimum is " ++ toString wordBytes ++ ")", ?_⟩
    simp [Unix.aligned_alloc, h]
  · intro h
    have hpow : is_power_of_two align = false := by
      rcases hb : is_power_of_two align with _ | _
      · rfl
      · exact absurd ((is_power_of_two_iff align).mp hb) h
    simp [Windows.aligned_alloc, hpow]

/-- C2 amended witness: word size 8 bytes / 64 bits; align 2 hard-fails on
Unix, and align 27 (not a power of two) hard-fails on Windows. -/
theorem invalid_align_hard_failure_witness :
    (∃ msg, Unix.aligned_alloc 8 .einval 1 2 = .error msg) ∧
    (Windows.aligned_alloc 64 osGood ⟨0⟩ 1 27).2.2 =
      .error "align must be a power of two" :=
  ⟨(invalid_align_hard_failure 8 64 1 2 osGood ⟨0⟩).1 (by decide),
    (invalid_align_hard_failure 8 64 1 27 osGood ⟨0⟩).2 (by
      rintro ⟨k, hk⟩
      have hb : is_power_of_two 27 = true := (is_power_of_two_iff 27).mpr ⟨k, hk⟩
      exact absurd hb (by decide))⟩

/-- C7: on the manual (Windows) allocator, whenever the (power-of-two)
alignment does not exceed the cached page size, `aligned_alloc` performs
exactly one memory call — a reserve+commit `VirtualAlloc` at an OS-chosen
address (null `lpAddress`) — and returns its result, skipping slow-path
steps 1-4 entirely (src/src/lib.rs:97-102). -/
theorem fast_path_single_call (w size align : Nat) (os : Windows.WinOS)
    (s : Windows.WinState) (hpow : is_power_of_two align = true)
    (hfast : align ≤ Windows.page_size_after os s) :
    List.filter Windows.is_mem_call (Windows.aligned_alloc w os s size align).2.1 =
      [Windows.WinCall.alloc 0 size (Windows.MEM_COMMIT ||| Windows.MEM_RESERVE)
        Windows.PAGE_READWRITE] ∧
    (Windows.aligned_alloc w os s size align).2.2 =
      .ok (os.virtualAlloc 0 size (Windows.MEM_COMMIT ||| Windows.MEM_RESERVE)
        Windows.PAGE_READWRITE) := by
  obtain ⟨ps⟩ := s
  by_cases hc : ps = 0 <;>
    simp_all [Windows.aligned_alloc, Windows.page_size_after, Windows.is_mem_call]

/-- C7 witness: align 128 on page size 4096 (cold cache): the only memory
call is the single reserve+commit at an OS-chosen address, and its result
65536 is returned. -/
theorem fast_path_single_call_witness :
    List.filter Windows.is_mem_call (Windows.aligned_alloc 64 osGood ⟨0⟩ 1 128).2.1 =
      [Windows.WinCall.alloc 0 1 (Windows.MEM_COMMIT ||| Windows.MEM_RESERVE)
        Windows.PAGE_READWRITE] ∧
    (Windows.aligned_alloc 64 osGood ⟨0⟩ 1 128).2.2 =
      .ok (osGood.virtualAlloc 0 1 (Windows.MEM_COMMIT ||| Windows.MEM_RESERVE)
        Windows.PAGE_READWRITE) :=
  fast_path_single_call 64 1 128 osGood ⟨0⟩ (by decide) (by decide)

/-- C8: a failing native release is always a panic carrying the
`GetLastError` code, never a normal return: in `aligned_free`
(src/src/lib.rs:124-129) and in the mid-algorithm release of slow-path
step 3 (src/src/lib.rs:114-117). -/
theorem free_failure_panics (w size align b : Nat) (os : Windows.WinOS)
    (s : Windows.WinState) :
    (os.virtualFree b 0 Windows.MEM_RELEASE = 0 →
      Windows.aligned_free os b =
        .error ("WINAPI error " ++ toString os.lastError ++ " while releasing memory")) ∧
    (is_power_of_two align = true →
      ¬align ≤ Windows.page_size_after os s →
      os.virtualAlloc 0 (reserve_size w size align) Windows.MEM_RESERVE
        Windows.PAGE_NOACCESS = b →
      b ≠ 0 →
      os.virtualFree b 0 Windows.MEM_RELEASE = 0 →
      (Windows.aligned_alloc w os s size align).2.2 =
        .error ("WINAPI error " ++ toString os.lastError ++
          " while freeing reserved memory")) := by
  constructor
  · intro h
    simp [Windows.aligned_free, h]
  · intro hpow hslow h1 hb hfree
    obtain ⟨ps⟩ := s
    by_cases hc : ps = 0 <;>
      simp_all [Windows.aligned_alloc, Windows.page_size_after] <;>
      rw [if_neg (by omega)]

/-- C8 witness: under `osFreeFail` (release always fails, `GetLastError`
487), `aligned_free` panics with the code, and the slow-path step-3
release of the reservation at 65536 panics with the code. -/
theorem free_failure_panics_witness :
    Windows.aligned_free osFreeFail 65536 =
      .error ("WINAPI error " ++ toString 487 ++ " while releasing memory") ∧
    (Windows.aligned_alloc 64 osFreeFail ⟨0⟩ 1 1048576).2.2 =
      .error ("WINAPI error " ++ toString 487 ++ " while freeing reserved memory") :=
  ⟨(free_failure_panics 64 1 1048576 65536 osFreeFail ⟨0⟩).1 (by decide),
    (free_failure_panics 64 1 1048576 65536 osFreeFail ⟨0⟩).2 (by decide) (by decide)
      (by decide) (by decide) (by decide)⟩

/-- C9: once the page-size cache is non-zero it is immutable: no sequence
of `aligned_alloc` / `aligned_free` operations changes it, and
`aligned_alloc` queries `GetSystemInfo` only when the cache still holds its
initial zero (src/src/lib.rs:79-94). -/
theorem page_size_cache_immutable (w : Nat) (os : Windows.WinOS)
    (s : Windows.WinState) (hs : s.PAGE_SIZE ≠ 0) :
    (∀ ops, Windows.run_ops w os s ops = s) ∧
    (∀ size align,
      Windows.WinCall.getSystemInfo ∉ (Windows.aligned_alloc w os s size align).2.1) := by
  have hstep : ∀ size align, (Windows.aligned_alloc w os s size align).1 = s ∧
      Windows.WinCall.getSystemInfo ∉ (Windows.aligned_alloc w os s size align).2.1 := by
    intro size align
    obtain ⟨ps⟩ := s
    simp only [ne_eq] at hs
    by_cases h1 : is_power_of_two align = false <;>
      by_cases h2 : align ≤ ps <;>
      by_cases h3 : os.virtualAlloc 0 (reserve_size w size align) Windows.MEM_RESERVE
        Windows.PAGE_NOACCESS = 0 <;>
      by_cases h4 : os.virtualFree (os.virtualAlloc 0 (reserve_size w size align)
        Windows.MEM_RESERVE Windows.PAGE_NOACCESS) 0 Windows.MEM_RELEASE = 0 <;>
      simp_all [Windows.aligned_alloc, Windows.page_size_after] <;>
      (rw [if_neg (by omega)]; try simp)
  refine ⟨?_, fun size align => (hstep size align).2⟩
  intro ops
  induction ops with
  | nil => rfl
  | cons op rest ih =>
    cases op with
    | alloc size align =>
      simpa [Windows.run_ops, Windows.run_op, (hstep size align).1] using ih
    | free p =>
      simpa [Windows.run_ops, Windows.run_op] using ih

/-- C9 witness: with a warm cache of 4096, a sequence of allocations and
frees leaves the cache at 4096 and an allocation performs no
`GetSystemInfo` query. -/
theorem page_size_cache_immutable_witness :
    Windows.run_ops 64 osGood ⟨4096⟩
      [.alloc 1 128, .free 65536, .alloc 1 1048576] = ⟨4096⟩ ∧
    Windows.WinCall.getSystemInfo ∉
      (Windows.aligned_alloc 64 osGood ⟨4096⟩ 1 1048576).2.1 :=
  ⟨(page_size_cache_immutable 64 osGood ⟨4096⟩ (by decide)).1 _,
    (page_size_cache_immutable 64 osGood ⟨4096⟩ (by decide)).2 1 1048576⟩

/-- C10: for usize inputs whose `size + align - 1` exceeds the maximum
usize value, the reservation-size computation at src/src/lib.rs:105 wraps
modulo `2 ^ w`, and the wrapped step-1 reservation request is strictly
smaller than `size`. -/
theorem reserve_size_wraps_on_overflow (w size align : Nat) (hs : size < 2 ^ w)
    (ha : align < 2 ^ w) (hpos : 0 < align) (hov : 2 ^ w ≤ size + align - 1) :
    reserve_size w size align = size + align - 1 - 2 ^ w ∧
    reserve_size w size align < size := by
  have h1 : reserve_size w size align = (size + align - 1) % 2 ^ w := by
    unfold reserve_size
    rw [wsub1_wadd_eq w size align hpos]
  have h3 : (size + align - 1) % 2 ^ w = size + align - 1 - 2 ^ w := by
    rw [Nat.mod_eq_sub_mod hov]
    exact Nat.mod_eq_of_lt (by omega)
  constructor <;> omega

/-- C1: for every size and every align `2 ^ k` that fits in a usize, a
non-null address returned by `aligned_alloc` is divisible by `align`.  On
Unix the adapter passes the `posix_memalign` pointer through, and POSIX
guarantees its alignment (hypothesis `align ∣ q`).  On the manual Windows
path, the fast path is aligned under the hypothesis that the OS allocator
returns page-aligned addresses (page size `2 ^ j`), and the slow path by
construction of the aligned address, under the hypotheses that
`VirtualAlloc` at a non-null requested address either honors the address
or fails, and that the reserved window lies within the address space. -/
theorem aligned_alloc_result_aligned (wordBytes w k j size align p : Nat)
    (os : Windows.WinOS) (s : Windows.WinState)
    (halign : align = 2 ^ k) (hk : k ≤ w) :
    (∀ q, align ∣ q →
      Unix.aligned_alloc wordBytes (.ok q) size align = .ok q ∧ q % align = 0) ∧
    (Windows.page_size_after os s = 2 ^ j →
      (∀ sz t pr, 2 ^ j ∣ os.virtualAlloc 0 sz t pr) →
      (∀ a sz t pr, a ≠ 0 →
        os.virtualAlloc a sz t pr = a ∨ os.virtualAlloc a sz t pr = 0) →
      os.virtualAlloc 0 (reserve_size w size align) Windows.MEM_RESERVE
        Windows.PAGE_NOACCESS + align - 1 < 2 ^ w →
      (Windows.aligned_alloc w os s size align).2.2 = .ok p →
      p ≠ 0 → p % align = 0) := by
  subst halign
  have hpow : is_power_of_two (2 ^ k) = true := (is_power_of_two_iff _).mpr ⟨k, rfl⟩
  constructor
  · intro q hq
    exact ⟨rfl, Nat.mod_eq_zero_of_dvd hq⟩
  · intro hpage hpal hexp hwin hres hne
    by_cases hfast : 2 ^ k ≤ Windows.page_size_after os s
    · rw [aligned_alloc_fast_result w size (2 ^ k) os s hpow hfast] at hres
      have hp := (Except.ok.inj hres).symm
      have hjd : (2 : Nat) ^ j ∣ p := hp ▸ hpal size _ _
      have hkj : k ≤ j := by
        rw [hpage] at hfast
        exact (Nat.pow_le_pow_iff_right (by omega)).mp hfast
      exact Nat.mod_eq_zero_of_dvd (dvd_trans (pow_dvd_pow 2 hkj) hjd)
    · set b := os.virtualAlloc 0 (reserve_size w size (2 ^ k)) Windows.MEM_RESERVE
        Windows.PAGE_NOACCESS with hbdef
      by_cases hb : b = 0
      · rw [aligned_alloc_nullreserve_result w size (2 ^ k) os s hpow hfast
          (hbdef ▸ hb)] at hres
        exact absurd (Except.ok.inj hres).symm hne
      · by_cases hfree : os.virtualFree b 0 Windows.MEM_RELEASE = 0
        · rw [aligned_alloc_freefail_result w size (2 ^ k) b os s hpow hfast
            hbdef.symm hb hfree] at hres
          exact absurd hres (by simp)
        · rw [aligned_alloc_commit_result w size (2 ^ k) b os s hpow hfast
            hbdef.symm hb hfree] at hres
          have hp := (Except.ok.inj hres).symm
          have hov : b + 2 ^ k - 1 < 2 ^ w := hwin
          have hge : b ≤ align_up w b (2 ^ k) := align_up_ge w k b hk hov
          have hau : align_up w b (2 ^ k) ≠ 0 := by omega
          rcases hexp (align_up w b (2 ^ k)) size
              (Windows.MEM_COMMIT ||| Windows.MEM_RESERVE) Windows.PAGE_READWRITE hau
            with hcase | hcase
          · rw [hcase] at hp
            rw [hp]
            exact align_up_mod_self w k b hk
          · rw [hcase] at hp
            exact absurd hp hne

/-- C1 witness: on Unix, alignment 128 with the POSIX pointer 256 is
returned aligned; on Windows under `osGood` (cold cache), alignment
`2 ^ 20` produces the slow-path address 1048576, which is `2 ^ 20`
aligned. -/
theorem aligned_alloc_result_aligned_witness :
    (Unix.aligned_alloc 8 (.ok 256) 1 128 = .ok 256 ∧ 256 % 128 = 0) ∧
    1048576 % 2 ^ 20 = 0 :=
  ⟨(aligned_alloc_result_aligned 8 64 7 12 1 128 0 osGood ⟨0⟩ (by decide)
      (by decide)).1 256 (by decide),
    (aligned_alloc_result_aligned 8 64 20 12 1 (2 ^ 20) 1048576 osGood ⟨0⟩ rfl
      (by decide)).2 (by decide) (fun _ _ _ => ⟨16, rfl⟩)
      (fun a _ _ _ ha => Or.inl (by simp [osGood, ha])) (by decide) rfl (by decide)⟩

/-- C10 witness: on a 64-bit word, `size = usize::MAX` with align 8192
requests a wrapped reservation of only 8190 bytes, smaller than `size`. -/
theorem reserve_size_wraps_on_overflow_witness :
    reserve_size 64 (2 ^ 64 - 1) 8192 = (2 ^ 64 - 1) + 8192 - 1 - 2 ^ 64 ∧
    reserve_size 64 (2 ^ 64 - 1) 8192 < 2 ^ 64 - 1 :=
  reserve_size_wraps_on_overflow 64 (2 ^ 64 - 1) 8192 (by decide) (by decide) (by decide)
    (by decide)

end AlignedAlloc
